import Mathlib

/-!
Shallow embedding of `packages/core/src/tools/tool_manager.ts` (class
`ToolManager`) from the suika graphics editor.

Modelling choices:
* Tool constructors are modelled by registering the tool's `type` string;
  `new ctor(editor)` produces a fresh `ToolInstance` (fresh numeric id,
  carrying that type), and the construction is recorded as an observation.
* All calls into tool instances (`onStart`, `onDrag`, `onEnd`, `afterEnd`,
  `onMoveExcludeDrag`, `onActive`, `onInactive`, optional hooks), event
  emitter broadcasts, cursor updates and the canvas-dragger enable/disable
  calls are recorded as a list of observations `Obs`.
* The mutable fields of the class and of the `bindEvent` closure
  (`isPressing`, `startPos`, `startWithLeftMouse`) form the state `TMState`.
* External collaborators read inside a handler (text editor editing flag,
  space-pressing flag, the `dragBlockStep` setting) are passed in as an
  environment `Env` sampled when the handler body runs.
* JavaScript `throw` is modelled by the `err` field of `StepResult`; field
  mutations performed before the throw persist, as they do in JS.
* Pointer coordinates are modelled as integers; the drag-threshold
  comparison `Math.abs(dx) > dragBlockStep` is exact on integers.
-/

namespace Suika

/-- A pointer event: `button`, `clientX`, `clientY`, and whether
`e.target` is the editor's canvas element. -/
structure PtrEvent where
  button : Int
  clientX : Int
  clientY : Int
  targetIsCanvas : Bool
deriving DecidableEq, Repr

/-- A 2D point (the `IPoint` interface). -/
structure IPoint where
  x : Int
  y : Int
deriving DecidableEq, Repr

/-- External state read by the handlers when they run: text-editing mode,
space-key-pressed mode, and the `dragBlockStep` setting. -/
structure Env where
  isEditing : Bool
  isSpacePressing : Bool
  dragBlockStep : Int
deriving DecidableEq, Repr

/-- A live tool instance: a fresh identity plus its tool `type`. -/
structure ToolInstance where
  id : Nat
  type : String
deriving DecidableEq, Repr

/-- Observable effects of the tool manager: calls into tool instances,
broadcasts, cursor updates, canvas-dragger toggles and console warnings. -/
inductive Obs where
  | construct (id : Nat) (ty : String)
  | onActive (id : Nat)
  | onInactive (id : Nat)
  | onStart (id : Nat) (e : PtrEvent)
  | onDrag (id : Nat) (e : PtrEvent)
  | onEnd (id : Nat) (e : PtrEvent) (isDragging : Bool)
  | afterEnd (id : Nat) (e : PtrEvent)
  | onMoveExcludeDrag (id : Nat) (e : PtrEvent) (isOutsideCanvas : Bool)
  | onCommandChange (id : Nat)
  | onSpaceToggle (id : Nat) (pressed : Bool)
  | onAltToggle (id : Nat) (pressed : Bool)
  | onViewportXOrYChange (id : Nat) (x y : Int)
  | setCursor (id : Nat)
  | emitSwitchTool (ty : String)
  | emitChangeEnableTools (tys : List String)
  | disableDragBySpace
  | enableDragBySpace
  | warn (msg : String)
deriving DecidableEq, Repr

/-- The mutable state of a `ToolManager`, including the mutable variables
of the `bindEvent` closure. -/
structure TMState where
  /-- registered tool types (keys of `toolCtorMap`) -/
  toolCtorMap : List String
  /-- `hotkeySet` -/
  hotkeySet : List String
  /-- tool types with a registered keybinding (`keyBindingToken`) -/
  keyBindings : List String
  /-- `currentTool` -/
  currentTool : Option ToolInstance
  /-- `enableSwitchTool` -/
  enableSwitchTool : Bool
  /-- `_isDragging` -/
  isDraggingFlag : Bool
  /-- `enableToolTypes` -/
  enableToolTypes : List String
  /-- `currViewportPoint` -/
  currViewportPoint : IPoint
  /-- `isPressing` (closure variable of `bindEvent`) -/
  isPressing : Bool
  /-- `startPos` (closure variable of `bindEvent`) -/
  startPos : IPoint
  /-- `startWithLeftMouse` (closure variable of `bindEvent`) -/
  startWithLeftMouse : Bool
  /-- next fresh instance id for `new ctor(editor)` -/
  nextInstId : Nat
deriving DecidableEq, Repr

/-- Result of running one handler: final state, observations emitted in
order, and the message of a thrown error, if any. -/
structure StepResult where
  state : TMState
  obs : List Obs
  err : Option String
deriving DecidableEq, Repr

/-- A normally-returning handler result. -/
def ok (s : TMState) (obs : List Obs) : StepResult := ⟨s, obs, none⟩

/-- `getActiveToolName(): return this.currentTool?.type`. -/
def getActiveToolName (s : TMState) : Option String :=
  s.currentTool.map (fun t => t.type)

/-- `setActiveTool(toolName)`. -/
def setActiveTool (s : TMState) (toolName : String) : StepResult :=
  if ¬s.enableSwitchTool ∨ getActiveToolName s = some toolName then
    ok s []
  else if ¬(toolName ∈ s.enableToolTypes) then
    ok s [Obs.warn "target tool is not enable"]
  else
    let prevTool := s.currentTool
    if ¬(toolName ∈ s.toolCtorMap) then
      { state := s, obs := [], err := some "tool is not registered" }
    else
      -- `const currentTool = (this.currentTool = new currentToolCtor(this.editor));`
      let inst : ToolInstance := ⟨s.nextInstId, toolName⟩
      let s1 := { s with currentTool := some inst, nextInstId := s.nextInstId + 1 }
      ok s1
        ([Obs.construct inst.id toolName] ++
          (match prevTool with
            | some p => [Obs.onInactive p.id]
            | none => []) ++
          [Obs.setCursor inst.id, Obs.onActive inst.id,
            Obs.emitSwitchTool inst.type])

/-- The deferred body of `handleDown` (the code inside `setTimeout`),
run with the environment sampled when the timeout fires. -/
def handleDown (env : Env) (s : TMState) (e : PtrEvent) : StepResult :=
  let s0 := { s with isPressing := false, isDraggingFlag := false,
                     startWithLeftMouse := false }
  if e.button ≠ 0 ∨ env.isEditing = true ∨ env.isSpacePressing = true then
    ok s0 []
  else
    let s1 := { s0 with isPressing := true, startWithLeftMouse := true }
    match s1.currentTool with
    | none => { state := s1, obs := [], err := some "there is no active tool" }
    | some t =>
      let s2 := { s1 with startPos := ⟨e.clientX, e.clientY⟩ }
      ok s2 [Obs.onStart t.id e]

/-- `handleMove`. -/
def handleMove (env : Env) (s : TMState) (e : PtrEvent) : StepResult :=
  let s0 := { s with currViewportPoint := ⟨e.clientX, e.clientY⟩ }
  match s0.currentTool with
  | none => { state := s0, obs := [], err := some "no current tool" }
  | some t =>
    if s0.isPressing then
      if ¬s0.startWithLeftMouse then
        ok s0 []
      else
        let dx := e.clientX - s0.startPos.x
        let dy := e.clientY - s0.startPos.y
        let s1 :=
          if ¬s0.isDraggingFlag ∧
              (|dx| > env.dragBlockStep ∨ |dy| > env.dragBlockStep) then
            { s0 with isDraggingFlag := true }
          else s0
        if s1.isDraggingFlag then
          ok { s1 with enableSwitchTool := false }
            [Obs.disableDragBySpace, Obs.onDrag t.id e]
        else
          ok s1 []
    else
      ok s0 [Obs.onMoveExcludeDrag t.id e (!e.targetIsCanvas)]

/-- `handleUp`. -/
def handleUp (s : TMState) (e : PtrEvent) : StepResult :=
  let s0 := { s with enableSwitchTool := true }
  if ¬s0.startWithLeftMouse then
    ok s0 []
  else
    match s0.currentTool with
    | none => { state := s0, obs := [], err := some "no current tool" }
    | some t =>
      if s0.isPressing then
        let wasDragging := s0.isDraggingFlag
        let s1 := { s0 with isPressing := false, isDraggingFlag := false }
        ok s1
          [Obs.enableDragBySpace, Obs.onEnd t.id e wasDragging,
            Obs.afterEnd t.id e]
      else
        ok { s0 with isDraggingFlag := false } []

/-- `setEnableHotKeyTools(toolTypes)`. -/
def setEnableHotKeyTools (s : TMState) (toolTypes : List String) : StepResult :=
  ok { s with enableToolTypes := toolTypes }
    [Obs.emitChangeEnableTools toolTypes]

/-- Insert into a set-as-list, keeping membership semantics of `Map.set`
and `Set.add`. -/
def insertType (l : List String) (a : String) : List String :=
  if a ∈ l then l else l ++ [a]

/-- `registerToolCtor(toolCtor)`: warns on duplicate type, logs on
duplicate hotkey, always registers a fresh keybinding for the type. -/
def registerToolCtor (s : TMState) (ty hotkey : String) : StepResult :=
  let warnObs := if ty ∈ s.toolCtorMap then [Obs.warn "tool had exit, replace it"] else []
  let s1 := { s with toolCtorMap := insertType s.toolCtorMap ty }
  let logObs := if hotkey ∈ s1.hotkeySet then [Obs.warn "register same hotkey"] else []
  let s2 := { s1 with hotkeySet := insertType s1.hotkeySet hotkey,
                      keyBindings := s1.keyBindings ++ [ty] }
  ok s2 (warnObs ++ logObs)

/-- Pressing the hotkey of a registered binding for tool type `ty`: the
keybinding service evaluates the `when` closure
(`() => this.enableToolTypes.includes(type)`) at trigger time and, when
true, runs the action `() => this.setActiveTool(type)`. -/
def triggerHotkey (s : TMState) (ty : String) : StepResult :=
  if ty ∈ s.keyBindings ∧ ty ∈ s.enableToolTypes then
    setActiveTool s ty
  else
    ok s []

/-- `destroy(): this.currentTool?.onInactive()`. -/
def destroy (s : TMState) : StepResult :=
  match s.currentTool with
  | some t => ok s [Obs.onInactive t.id]
  | none => ok s []

/-- The seven listener registrations installed by `bindEvent`. -/
structure Listeners where
  pointerdown : Bool
  pointermove : Bool
  pointerup : Bool
  commandChange : Bool
  spaceToggle : Bool
  altToggle : Bool
  xOrYChange : Bool
deriving DecidableEq, Repr

/-- After `bindEvent`, all seven listeners are attached. -/
def bindEventListeners : Listeners :=
  ⟨true, true, true, true, true, true, true⟩

/-- The teardown closure returned by `bindEvent`: it removes the
`pointerdown`, `pointermove`, `pointerup`, command `change` and
`spaceToggle` registrations (and no others). -/
def unbindReturnedByBindEvent (l : Listeners) : Listeners :=
  { l with pointerdown := false, pointermove := false, pointerup := false,
           commandChange := false, spaceToggle := false }

/-- `unbindEvent()`: run the stored teardown and unbind all hotkeys. -/
def unbindEvent (l : Listeners) (s : TMState) : Listeners × TMState :=
  (unbindReturnedByBindEvent l, { s with keyBindings := [] })

/-- Dispatch of a host `altToggle` event: reaches the tool only while the
`handleAltToggle` listener is attached. -/
def dispatchAltToggle (l : Listeners) (s : TMState) (pressed : Bool) : List Obs :=
  if l.altToggle then
    match s.currentTool with
    | some t => [Obs.onAltToggle t.id pressed]
    | none => []
  else []

/-- Dispatch of a viewport `xOrYChange` event: reaches the tool only while
the `handleViewportXOrYChange` listener is attached. -/
def dispatchXOrYChange (l : Listeners) (s : TMState) (x y : Int) : List Obs :=
  if l.xOrYChange then
    match s.currentTool with
    | some t => [Obs.onViewportXOrYChange t.id x y]
    | none => []
  else []

/-- Dispatch of a host `spaceToggle` event through the listener table. -/
def dispatchSpaceToggle (l : Listeners) (s : TMState) (pressed : Bool) : List Obs :=
  if l.spaceToggle then
    match s.currentTool with
    | some t => [Obs.onSpaceToggle t.id pressed]
    | none => []
  else []

/-- Dispatch of a command-system `change` event through the listener table. -/
def dispatchCommandChange (l : Listeners) (s : TMState) : List Obs :=
  if l.commandChange then
    match s.currentTool with
    | some t => [Obs.onCommandChange t.id]
    | none => []
  else []

/-- The actions a run of the tool manager can take. `down` is the deferred
`handleDown` body firing (environment sampled at fire time). -/
inductive Action where
  | down (e : PtrEvent) (env : Env)
  | move (e : PtrEvent) (env : Env)
  | up (e : PtrEvent)
  | setTool (ty : String)
  | hotkey (ty : String)
  | setEnable (tys : List String)
  | destroyAct
deriving DecidableEq, Repr

/-- One step of the tool manager. -/
def step (s : TMState) : Action → StepResult
  | .down e env => handleDown env s e
  | .move e env => handleMove env s e
  | .up e => handleUp s e
  | .setTool ty => setActiveTool s ty
  | .hotkey ty => triggerHotkey s ty
  | .setEnable tys => setEnableHotKeyTools s tys
  | .destroyAct => destroy s

/-- Run a list of actions, collecting all observations in order.
A thrown error aborts only the handler that threw it, as in JS. -/
def run (s : TMState) : List Action → TMState × List Obs
  | [] => (s, [])
  | a :: rest =>
    let r := step s a
    let rec' := run r.state rest
    (rec'.1, r.obs ++ rec'.2)

/-- Run a sequence of `setActiveTool` calls, collecting observations. -/
def runSwitches (s : TMState) : List String → TMState × List Obs
  | [] => (s, [])
  | ty :: rest =>
    let r := setActiveTool s ty
    let rest' := runSwitches r.state rest
    (rest'.1, r.obs ++ rest'.2)

/-- Fold one observation into the list of currently-active instance ids:
`onActive` makes an instance active, `onInactive` removes it. -/
def activeStep (l : List Nat) (o : Obs) : List Nat :=
  match o with
  | Obs.onActive i => l ++ [i]
  | Obs.onInactive i => l.erase i
  | _ => l

/-- The instances active after an observation trace, starting from `l`. -/
def activeAfter (l : List Nat) (obs : List Obs) : List Nat :=
  obs.foldl activeStep l

/-- At every point of the observation trace, at most one instance is
active. -/
def AtMostOne (l : List Nat) (obs : List Obs) : Prop :=
  ∀ i : Nat, (activeAfter l (obs.take i)).length ≤ 1

/-- The type of the last successful `switchTool` broadcast in the trace,
starting from accumulator `acc`. -/
def lastSwitchedFrom (acc : Option String) (obs : List Obs) : Option String :=
  obs.foldl
    (fun a o =>
      match o with
      | Obs.emitSwitchTool ty => some ty
      | _ => a) acc

/-- Linking invariant between a state and the list of active instance
ids: the active list is empty, or the singleton of the current tool's
id. -/
def Inv (s : TMState) (l : List Nat) : Prop :=
  l = [] ∨ ∃ t, s.currentTool = some t ∧ l = [t.id]

/-- Name-tracking invariant: the accumulator of `lastSwitchedFrom`
determines the current active tool name (relative to a start state). -/
def Track (s0 : TMState) (s : TMState) (acc : Option String) : Prop :=
  (acc = none → getActiveToolName s = getActiveToolName s0) ∧
  (∀ ty, acc = some ty → getActiveToolName s = some ty)

/-- The state is in a live press sequence owned by instance `t`, started
at `p0` with the primary button. -/
def Pressed (t : ToolInstance) (p0 : IPoint) (s : TMState) : Prop :=
  s.currentTool = some t ∧ s.isPressing = true ∧
  s.startWithLeftMouse = true ∧ s.startPos = p0

/-- The move event `e` exceeds the drag threshold from press start `p0`
on some axis (the code's `Math.abs(dx) > dragBlockStep || Math.abs(dy) >
dragBlockStep`). -/
def exceeds (env : Env) (p0 : IPoint) (e : PtrEvent) : Prop :=
  |e.clientX - p0.x| > env.dragBlockStep ∨ |e.clientY - p0.y| > env.dragBlockStep

instance (env : Env) (p0 : IPoint) (e : PtrEvent) :
    Decidable (exceeds env p0 e) := by
  unfold exceeds; infer_instance

/-- Run a list of pointermove events through `handleMove`. -/
def runMoves (env : Env) (s : TMState) : List PtrEvent → TMState
  | [] => s
  | e :: rest => runMoves env (handleMove env s e).state rest

/-- Actions allowed in the middle of a press sequence for the amended
lifecycle-pairing claim, checked at the state where each action runs:
pointer moves, and `setActiveTool` requests (direct or hotkey-initiated)
that are refused there — the switch gate is closed, the target is
already the active tool, or the target is not in the enabled set (a
hotkey may also simply not pass its `when` predicate). -/
def MidsOk : TMState → List Action → Prop
  | _, [] => True
  | s, a :: rest =>
    ((∃ e env, a = Action.move e env) ∨
      (∃ ty, a = Action.setTool ty ∧
        (¬s.enableSwitchTool = true ∨ getActiveToolName s = some ty ∨
          ty ∉ s.enableToolTypes)) ∨
      (∃ ty, a = Action.hotkey ty ∧
        (¬(ty ∈ s.keyBindings ∧ ty ∈ s.enableToolTypes) ∨
          ¬s.enableSwitchTool = true ∨ getActiveToolName s = some ty))) ∧
    MidsOk (step s a).state rest

/-! Concrete fixtures used by witnesses and counterexamples. -/

/-- Sample active instance: the initially active select tool. -/
def toolSelect : ToolInstance := ⟨0, "select"⟩

/-- A sample state right after startup: select tool active, three tools
registered and enabled, gate open, nothing pressed. -/
def baseState : TMState :=
  { toolCtorMap := ["select", "rect", "ellipse"]
    hotkeySet := ["v", "r", "e"]
    keyBindings := ["select", "rect", "ellipse"]
    currentTool := some toolSelect
    enableSwitchTool := true
    isDraggingFlag := false
    enableToolTypes := ["select", "rect", "ellipse"]
    currViewportPoint := ⟨0, 0⟩
    isPressing := false
    startPos := ⟨0, 0⟩
    startWithLeftMouse := false
    nextInstId := 1 }

/-- `baseState` with an enabled but never-registered tool type. -/
def ghostState : TMState :=
  { baseState with enableToolTypes := ["select", "rect", "ghost"] }

/-- `baseState` with no current tool. -/
def noToolState : TMState :=
  { baseState with currentTool := none }

/-- `baseState` with only `select` enabled (`rect` stays registered and
hotkey-bound but disabled). -/
def restrictedState : TMState :=
  { baseState with enableToolTypes := ["select"] }

/-- A primary-button pointerdown at the origin on the canvas. -/
def downEvent : PtrEvent := ⟨0, 0, 0, true⟩

/-- A secondary-button (right) pointerdown. -/
def rightDownEvent : PtrEvent := ⟨2, 0, 0, true⟩

/-- Environment: not editing text, space not pressed, `dragBlockStep = 5`. -/
def calmEnv : Env := ⟨false, false, 5⟩

/-- A move to (2,2): within the threshold 5. -/
def moveSmall : PtrEvent := ⟨0, 2, 2, true⟩

/-- A move to (10,10): past the threshold 5. -/
def moveBig : PtrEvent := ⟨0, 10, 10, true⟩

/-- A further move to (12,9) while dragging. -/
def moveBig2 : PtrEvent := ⟨0, 12, 9, true⟩

/-- The matching pointerup. -/
def upEvent : PtrEvent := ⟨0, 12, 9, true⟩

/-- `baseState` mid-press: primary button held, start at the origin. -/
def pressedState : TMState :=
  { baseState with isPressing := true, startWithLeftMouse := true }

/-- A press sequence with a successful tool switch in the
pressed-within-threshold window: down, `setActiveTool('rect')`, up. -/
def c3trace : List Action :=
  [Action.down downEvent calmEnv, Action.setTool "rect", Action.up upEvent]

/-- Observation is one of the effects a refused `setActiveTool` must not
produce: `onInactive`, `onActive`, or a `switchTool` broadcast. -/
def isSwitchEffect : Obs → Bool
  | Obs.onInactive _ => true
  | Obs.onActive _ => true
  | Obs.emitSwitchTool _ => true
  | _ => false

/-! ## Theorems -/

@[simp] theorem run_nil (s : TMState) : run s [] = (s, []) := rfl

@[simp] theorem run_cons (s : TMState) (a : Action) (rest : List Action) :
    run s (a :: rest) =
      ((run (step s a).state rest).1,
        (step s a).obs ++ (run (step s a).state rest).2) := rfl

/-! Branch characterizations of the handlers. -/

theorem setActiveTool_refused (s : TMState) (ty : String)
    (h : ¬s.enableSwitchTool = true ∨ getActiveToolName s = some ty) :
    setActiveTool s ty = ⟨s, [], none⟩ := by
  unfold setActiveTool
  rw [if_pos h]
  rfl

theorem setActiveTool_notEnabled (s : TMState) (ty : String)
    (hg : s.enableSwitchTool = true) (hne : getActiveToolName s ≠ some ty)
    (h : ty ∉ s.enableToolTypes) :
    setActiveTool s ty = ⟨s, [Obs.warn "target tool is not enable"], none⟩ := by
  unfold setActiveTool
  rw [if_neg (by simp [hg, hne]), if_pos h]
  rfl

theorem setActiveTool_unregistered (s : TMState) (ty : String)
    (hg : s.enableSwitchTool = true) (hne : getActiveToolName s ≠ some ty)
    (hen : ty ∈ s.enableToolTypes) (h : ty ∉ s.toolCtorMap) :
    setActiveTool s ty = ⟨s, [], some "tool is not registered"⟩ := by
  unfold setActiveTool
  rw [if_neg (by simp [hg, hne]), if_neg (by simp [hen])]
  simp only []
  rw [if_pos h]

theorem setActiveTool_success (s : TMState) (ty : String)
    (hg : s.enableSwitchTool = true) (hne : getActiveToolName s ≠ some ty)
    (hen : ty ∈ s.enableToolTypes) (hreg : ty ∈ s.toolCtorMap) :
    setActiveTool s ty =
      ⟨{ s with currentTool := some ⟨s.nextInstId, ty⟩,
                nextInstId := s.nextInstId + 1 },
        Obs.construct s.nextInstId ty ::
          ((match s.currentTool with
            | some p => [Obs.onInactive p.id]
            | none => []) ++
          [Obs.setCursor s.nextInstId, Obs.onActive s.nextInstId,
            Obs.emitSwitchTool ty]),
        none⟩ := by
  unfold setActiveTool
  rw [if_neg (by simp [hg, hne]), if_neg (by simp [hen])]
  simp only []
  rw [if_neg (by simp [hreg])]
  rfl

theorem handleDown_excluded (env : Env) (s : TMState) (e : PtrEvent)
    (h : e.button ≠ 0 ∨ env.isEditing = true ∨ env.isSpacePressing = true) :
    handleDown env s e =
      ⟨{ s with isPressing := false, isDraggingFlag := false,
                startWithLeftMouse := false }, [], none⟩ := by
  unfold handleDown
  rw [if_pos h]
  rfl

theorem handleDown_ok (env : Env) (s : TMState) (e : PtrEvent) (t : ToolInstance)
    (hb : e.button = 0) (hed : env.isEditing = false)
    (hsp : env.isSpacePressing = false) (ht : s.currentTool = some t) :
    handleDown env s e =
      ⟨{ s with isPressing := true, isDraggingFlag := false,
                startWithLeftMouse := true,
                startPos := ⟨e.clientX, e.clientY⟩ },
        [Obs.onStart t.id e], none⟩ := by
  unfold handleDown
  rw [if_neg (by simp [hb, hed, hsp])]
  simp [ht, ok]

theorem handleDown_noTool (env : Env) (s : TMState) (e : PtrEvent)
    (hb : e.button = 0) (hed : env.isEditing = false)
    (hsp : env.isSpacePressing = false) (ht : s.currentTool = none) :
    handleDown env s e =
      ⟨{ s with isPressing := true, isDraggingFlag := false,
                startWithLeftMouse := true },
        [], some "there is no active tool"⟩ := by
  unfold handleDown
  rw [if_neg (by simp [hb, hed, hsp])]
  simp [ht]

theorem handleMove_idle (env : Env) (s : TMState) (e : PtrEvent) (t : ToolInstance)
    (ht : s.currentTool = some t) (hp : s.isPressing = false) :
    handleMove env s e =
      ⟨{ s with currViewportPoint := ⟨e.clientX, e.clientY⟩ },
        [Obs.onMoveExcludeDrag t.id e (!e.targetIsCanvas)], none⟩ := by
  unfold handleMove
  simp [ht, hp, ok]

theorem handleMove_pressed_small (env : Env) (s : TMState) (e : PtrEvent)
    (t : ToolInstance)
    (ht : s.currentTool = some t) (hp : s.isPressing = true)
    (hl : s.startWithLeftMouse = true) (hd : s.isDraggingFlag = false)
    (hne : ¬exceeds env s.startPos e) :
    handleMove env s e =
      ⟨{ s with currViewportPoint := ⟨e.clientX, e.clientY⟩ }, [], none⟩ := by
  unfold handleMove
  unfold exceeds at hne
  simp [ht, hp, hl, hd, ok, hne]

theorem handleMove_pressed_latch (env : Env) (s : TMState) (e : PtrEvent)
    (t : ToolInstance)
    (ht : s.currentTool = some t) (hp : s.isPressing = true)
    (hl : s.startWithLeftMouse = true) (hd : s.isDraggingFlag = false)
    (hex : exceeds env s.startPos e) :
    handleMove env s e =
      ⟨{ s with currViewportPoint := ⟨e.clientX, e.clientY⟩,
                isDraggingFlag := true, enableSwitchTool := false },
        [Obs.disableDragBySpace, Obs.onDrag t.id e], none⟩ := by
  unfold handleMove
  unfold exceeds at hex
  simp [ht, hp, hl, hd, ok, hex]

theorem handleMove_dragging (env : Env) (s : TMState) (e : PtrEvent)
    (t : ToolInstance)
    (ht : s.currentTool = some t) (hp : s.isPressing = true)
    (hl : s.startWithLeftMouse = true) (hd : s.isDraggingFlag = true) :
    handleMove env s e =
      ⟨{ s with currViewportPoint := ⟨e.clientX, e.clientY⟩,
                enableSwitchTool := false },
        [Obs.disableDragBySpace, Obs.onDrag t.id e], none⟩ := by
  unfold handleMove
  simp [ht, hp, hl, hd, ok]

theorem handleUp_pressed (s : TMState) (e : PtrEvent) (t : ToolInstance)
    (ht : s.currentTool = some t) (hl : s.startWithLeftMouse = true)
    (hp : s.isPressing = true) :
    handleUp s e =
      ⟨{ s with enableSwitchTool := true, isPressing := false,
                isDraggingFlag := false },
        [Obs.enableDragBySpace, Obs.onEnd t.id e s.isDraggingFlag,
          Obs.afterEnd t.id e], none⟩ := by
  unfold handleUp
  simp [ht, hl, hp, ok]

theorem handleUp_noLeft (s : TMState) (e : PtrEvent)
    (hl : s.startWithLeftMouse = false) :
    handleUp s e = ⟨{ s with enableSwitchTool := true }, [], none⟩ := by
  unfold handleUp
  simp [hl, ok]

theorem triggerHotkey_skipped (s : TMState) (ty : String)
    (h : ¬(ty ∈ s.keyBindings ∧ ty ∈ s.enableToolTypes)) :
    triggerHotkey s ty = ⟨s, [], none⟩ := by
  unfold triggerHotkey
  rw [if_neg h]
  rfl

theorem triggerHotkey_fires (s : TMState) (ty : String)
    (h1 : ty ∈ s.keyBindings) (h2 : ty ∈ s.enableToolTypes) :
    triggerHotkey s ty = setActiveTool s ty := by
  unfold triggerHotkey
  rw [if_pos ⟨h1, h2⟩]

theorem destroy_withTool (s : TMState) (t : ToolInstance)
    (ht : s.currentTool = some t) :
    destroy s = ⟨s, [Obs.onInactive t.id], none⟩ := by
  unfold destroy
  simp [ht, ok]

/-! Claim theorems. -/

/-- C2 counterexample: the claim says the previous tool's `onInactive` is
invoked first and only then is the new instance constructed; in the code
the new instance is constructed (line 234) before `prevTool.onInactive()`
(line 236). At this concrete input the first two observations of a
successful switch are the construction and only then `onInactive`. -/
theorem C2_counterexample :
    (setActiveTool baseState "rect").obs.take 2 =
      [Obs.construct 1 "rect", Obs.onInactive 0] := by decide

/-- C2 (amended): in a successful `setActiveTool(type)` with a previous
tool, the steps occur in this order: the new instance is constructed via
the registered constructor first, then the previous tool's `onInactive`
is invoked, then the cursor is updated, then the new instance's
`onActive` is invoked, and only after `onActive` completes is the
`switchTool` notification broadcast; the old tool's deactivation fully
completes before the new tool's `onActive` runs. -/
theorem C2_switch_order (s : TMState) (ty : String) (p : ToolInstance)
    (hg : s.enableSwitchTool = true) (hne : getActiveToolName s ≠ some ty)
    (hen : ty ∈ s.enableToolTypes) (hreg : ty ∈ s.toolCtorMap)
    (hprev : s.currentTool = some p) :
    (setActiveTool s ty).obs =
      [Obs.construct s.nextInstId ty, Obs.onInactive p.id,
        Obs.setCursor s.nextInstId, Obs.onActive s.nextInstId,
        Obs.emitSwitchTool ty] ∧
    (setActiveTool s ty).err = none := by
  rw [setActiveTool_success s ty hg hne hen hreg]
  simp [hprev]

/-- C2 witness: the amended order at a concrete switch from `select` to
`rect`. -/
theorem C2_switch_order_witness :
    (setActiveTool baseState "rect").obs =
      [Obs.construct 1 "rect", Obs.onInactive 0, Obs.setCursor 1,
        Obs.onActive 1, Obs.emitSwitchTool "rect"] ∧
    (setActiveTool baseState "rect").err = none :=
  C2_switch_order baseState "rect" toolSelect (by decide) (by decide)
    (by decide) (by decide) rfl

/-- C5: `setActiveTool(X)` is a no-op — no `onInactive` or `onActive`
call, no `switchTool` broadcast, active tool unchanged, no error — when
`X` is already active, or the switch gate is closed, or `X` is not in
the enabled tool set. -/
theorem C5_noop_cases (s : TMState) (ty : String)
    (h : getActiveToolName s = some ty ∨ s.enableSwitchTool = false ∨
      ty ∉ s.enableToolTypes) :
    (setActiveTool s ty).state = s ∧ (setActiveTool s ty).err = none ∧
    (setActiveTool s ty).obs.all (fun o => !isSwitchEffect o) = true := by
  rcases h with h | h | h
  · rw [setActiveTool_refused s ty (Or.inr h)]; exact ⟨rfl, rfl, rfl⟩
  · rw [setActiveTool_refused s ty (Or.inl (by simp [h]))]; exact ⟨rfl, rfl, rfl⟩
  · by_cases hg : s.enableSwitchTool = true
    · by_cases hact : getActiveToolName s = some ty
      · rw [setActiveTool_refused s ty (Or.inr hact)]; exact ⟨rfl, rfl, rfl⟩
      · rw [setActiveTool_notEnabled s ty hg hact h]; exact ⟨rfl, rfl, rfl⟩
    · rw [setActiveTool_refused s ty (Or.inl hg)]; exact ⟨rfl, rfl, rfl⟩

/-- C5 witness: switching to the already-active `select` tool is a no-op. -/
theorem C5_noop_cases_witness :
    (setActiveTool baseState "select").state = baseState ∧
    (setActiveTool baseState "select").err = none ∧
    (setActiveTool baseState "select").obs.all (fun o => !isSwitchEffect o) = true :=
  C5_noop_cases baseState "select" (Or.inl rfl)

/-- C6: `setActiveTool(type)` raises an error with the active tool
unchanged and no broadcast when `type` is enabled, not already active,
the gate is open, and `type` was never registered; and `handleDown`
raises an error when input dispatch is attempted with no active tool. -/
theorem C6_fatal_errors (s : TMState) (ty : String) (e : PtrEvent) (env : Env) :
    (s.enableSwitchTool = true → getActiveToolName s ≠ some ty →
      ty ∈ s.enableToolTypes → ty ∉ s.toolCtorMap →
      (setActiveTool s ty).err = some "tool is not registered" ∧
      (setActiveTool s ty).state = s ∧ (setActiveTool s ty).obs = []) ∧
    (s.currentTool = none → e.button = 0 → env.isEditing = false →
      env.isSpacePressing = false →
      (handleDown env s e).err = some "there is no active tool" ∧
      (handleDown env s e).obs = []) := by
  constructor
  · intro hg hne hen h
    rw [setActiveTool_unregistered s ty hg hne hen h]
    exact ⟨rfl, rfl, rfl⟩
  · intro ht hb hed hsp
    rw [handleDown_noTool env s e hb hed hsp ht]
    exact ⟨rfl, rfl⟩

/-- C6 witness: switching to the enabled but unregistered `ghost` tool
errors with state unchanged; a primary-button down with no current tool
errors. -/
theorem C6_fatal_errors_witness :
    ((setActiveTool ghostState "ghost").err = some "tool is not registered" ∧
      (setActiveTool ghostState "ghost").state = ghostState ∧
      (setActiveTool ghostState "ghost").obs = []) ∧
    ((handleDown calmEnv noToolState downEvent).err = some "there is no active tool" ∧
      (handleDown calmEnv noToolState downEvent).obs = []) :=
  ⟨(C6_fatal_errors ghostState "ghost" downEvent calmEnv).1 (by decide)
      (by decide) (by decide) (by decide),
    (C6_fatal_errors noToolState "rect" downEvent calmEnv).2 rfl rfl rfl rfl⟩

/-- C7: a pointerdown with a non-primary button, or during text editing,
or while space is pressed, leaves the machine idle: no `onStart`, no
error, `isPressing` stays false, and a subsequent pointermove dispatches
`onMoveExcludeDrag(event, isOutsideCanvas)` to the active tool. -/
theorem C7_excluded_down (env env' : Env) (s : TMState) (e e' : PtrEvent)
    (t : ToolInstance)
    (hex : e.button ≠ 0 ∨ env.isEditing = true ∨ env.isSpacePressing = true) :
    (handleDown env s e).err = none ∧
    (handleDown env s e).obs = [] ∧
    (handleDown env s e).state.isPressing = false ∧
    (s.currentTool = some t →
      (handleMove env' (handleDown env s e).state e').obs =
        [Obs.onMoveExcludeDrag t.id e' (!e'.targetIsCanvas)] ∧
      (handleMove env' (handleDown env s e).state e').err = none) := by
  rw [handleDown_excluded env s e hex]
  refine ⟨rfl, rfl, rfl, ?_⟩
  intro ht
  rw [handleMove_idle env' _ e' t (by simp [ht]) rfl]
  exact ⟨rfl, rfl⟩

/-- C7 witness: a right-button down on `baseState`, followed by a move. -/
theorem C7_excluded_down_witness :
    (handleDown calmEnv baseState rightDownEvent).err = none ∧
    (handleDown calmEnv baseState rightDownEvent).obs = [] ∧
    (handleDown calmEnv baseState rightDownEvent).state.isPressing = false ∧
    ((handleMove calmEnv (handleDown calmEnv baseState rightDownEvent).state
        moveSmall).obs = [Obs.onMoveExcludeDrag 0 moveSmall false] ∧
      (handleMove calmEnv (handleDown calmEnv baseState rightDownEvent).state
        moveSmall).err = none) :=
  have h := C7_excluded_down calmEnv calmEnv baseState rightDownEvent moveSmall
    toolSelect (Or.inl (by decide))
  ⟨h.1, h.2.1, h.2.2.1, h.2.2.2 rfl⟩

/-- C8: the hotkey's enabled-set predicate is evaluated at trigger time:
triggering the hotkey of a tool outside the enabled set does nothing,
and after `setEnableHotKeyTools` adds the type, the same registered
hotkey fires `setActiveTool` and (under the usual success conditions)
activates the tool, without re-registering anything. -/
theorem C8_hotkey_trigger_time (s : TMState) (ty : String) (tys : List String) :
    (ty ∉ s.enableToolTypes → triggerHotkey s ty = ⟨s, [], none⟩) ∧
    (ty ∈ s.keyBindings → ty ∈ tys →
      triggerHotkey (setEnableHotKeyTools s tys).state ty =
        setActiveTool (setEnableHotKeyTools s tys).state ty) ∧
    (ty ∈ s.keyBindings → ty ∈ tys → s.enableSwitchTool = true →
      getActiveToolName s ≠ some ty → ty ∈ s.toolCtorMap →
      getActiveToolName
        (triggerHotkey (setEnableHotKeyTools s tys).state ty).state = some ty) := by
  refine ⟨?_, ?_, ?_⟩
  · intro h
    exact triggerHotkey_skipped s ty (fun hc => h hc.2)
  · intro h1 h2
    exact triggerHotkey_fires _ ty h1 h2
  · intro h1 h2 hg hne hreg
    have hfire := triggerHotkey_fires (setEnableHotKeyTools s tys).state ty h1 h2
    have hsucc := setActiveTool_success (setEnableHotKeyTools s tys).state ty
      hg hne h2 hreg
    rw [hfire, hsucc]
    simp [getActiveToolName]

/-- C8 witness: with only `select` enabled, hotkey `rect` does nothing;
after enabling `rect`, the same binding activates it. -/
theorem C8_hotkey_trigger_time_witness :
    triggerHotkey restrictedState "rect" = ⟨restrictedState, [], none⟩ ∧
    getActiveToolName
      (triggerHotkey (setEnableHotKeyTools restrictedState
        ["select", "rect"]).state "rect").state = some "rect" :=
  have h := C8_hotkey_trigger_time restrictedState "rect" ["select", "rect"]
  ⟨h.1 (by decide), h.2.2 (by decide) (by decide) rfl (by decide) (by decide)⟩

/-- C9 (code bug): `bindEvent` installs seven listener registrations, but
the teardown it returns removes only five — the `altToggle` and viewport
`xOrYChange` listeners stay attached, so after `unbindEvent()` those two
events are still dispatched to the tool manager, contrary to the claim
that teardown removes every registration `bindEvent` installed. -/
theorem C9_unbind_leaves_listeners :
    (unbindEvent bindEventListeners baseState).1.pointerdown = false ∧
    (unbindEvent bindEventListeners baseState).1.pointermove = false ∧
    (unbindEvent bindEventListeners baseState).1.pointerup = false ∧
    (unbindEvent bindEventListeners baseState).1.commandChange = false ∧
    (unbindEvent bindEventListeners baseState).1.spaceToggle = false ∧
    (unbindEvent bindEventListeners baseState).1.altToggle = true ∧
    (unbindEvent bindEventListeners baseState).1.xOrYChange = true ∧
    dispatchAltToggle (unbindEvent bindEventListeners baseState).1
      (unbindEvent bindEventListeners baseState).2 true =
      [Obs.onAltToggle 0 true] ∧
    dispatchXOrYChange (unbindEvent bindEventListeners baseState).1
      (unbindEvent bindEventListeners baseState).2 3 4 =
      [Obs.onViewportXOrYChange 0 3 4] := by decide

/-- C10: `destroy()` invokes `onInactive` on the current tool but keeps
the reference: `getActiveToolName()` still returns the previous type, and
a subsequent successful `setActiveTool` to a different type invokes
`onInactive` on the same already-deactivated instance a second time. -/
theorem C10_destroy_keeps_reference (s : TMState) (t : ToolInstance)
    (ty : String) (hcur : s.currentTool = some t) :
    (destroy s).state = s ∧
    (destroy s).obs = [Obs.onInactive t.id] ∧
    getActiveToolName (destroy s).state = some t.type ∧
    (s.enableSwitchTool = true → ty ≠ t.type → ty ∈ s.enableToolTypes →
      ty ∈ s.toolCtorMap →
      ((destroy s).obs ++ (setActiveTool (destroy s).state ty).obs).count
        (Obs.onInactive t.id) = 2) := by
  have hname : getActiveToolName s = some t.type := by
    unfold getActiveToolName
    rw [hcur]
    rfl
  rw [destroy_withTool s t hcur]
  refine ⟨rfl, rfl, hname, ?_⟩
  intro hg hne hen hreg
  have hne' : getActiveToolName s ≠ some ty := by
    rw [hname]
    intro hh
    exact hne (Option.some.inj hh).symm
  rw [setActiveTool_success s ty hg hne' hen hreg]
  simp [hcur, List.count_cons, List.count_append]

/-! Machinery for the single-active invariant (C1). -/

theorem runSwitches_cons (s : TMState) (ty : String) (rest : List String) :
    runSwitches s (ty :: rest) =
      ((runSwitches (setActiveTool s ty).state rest).1,
        (setActiveTool s ty).obs ++
          (runSwitches (setActiveTool s ty).state rest).2) := rfl

theorem activeAfter_append (l : List Nat) (o1 o2 : List Obs) :
    activeAfter l (o1 ++ o2) = activeAfter (activeAfter l o1) o2 := by
  unfold activeAfter
  rw [List.foldl_append]

theorem lastSwitchedFrom_append (acc : Option String) (o1 o2 : List Obs) :
    lastSwitchedFrom acc (o1 ++ o2) =
      lastSwitchedFrom (lastSwitchedFrom acc o1) o2 := by
  unfold lastSwitchedFrom
  rw [List.foldl_append]

theorem Inv_length (s : TMState) (l : List Nat) (h : Inv s l) :
    l.length ≤ 1 := by
  rcases h with h | ⟨t, _, h⟩ <;> simp [h]

theorem atMostOne_append (l : List Nat) (o1 o2 : List Obs)
    (h1 : AtMostOne l o1) (h2 : AtMostOne (activeAfter l o1) o2) :
    AtMostOne l (o1 ++ o2) := by
  intro i
  rw [List.take_append_eq_append_take, activeAfter_append]
  rcases Nat.le_total i o1.length with hle | hge
  · have h0 : i - o1.length = 0 := Nat.sub_eq_zero_of_le hle
    rw [h0]
    simpa [activeAfter] using h1 i
  · rw [List.take_of_length_le hge]
    exact h2 (i - o1.length)

theorem setActiveTool_invStep (s : TMState) (ty : String) (l : List Nat)
    (s0 : TMState) (acc : Option String)
    (h : Inv s l) (htr : Track s0 s acc) :
    AtMostOne l (setActiveTool s ty).obs ∧
    Inv (setActiveTool s ty).state (activeAfter l (setActiveTool s ty).obs) ∧
    Track s0 (setActiveTool s ty).state
      (lastSwitchedFrom acc (setActiveTool s ty).obs) := by
  have hlen := Inv_length s l h
  have noopCase : ∀ r : StepResult, setActiveTool s ty = r → r.state = s →
      r.obs = [] →
      AtMostOne l (setActiveTool s ty).obs ∧
      Inv (setActiveTool s ty).state
        (activeAfter l (setActiveTool s ty).obs) ∧
      Track s0 (setActiveTool s ty).state
        (lastSwitchedFrom acc (setActiveTool s ty).obs) := by
    intro r hr hs ho
    rw [hr, hs, ho]
    exact ⟨fun i => by simpa [activeAfter] using hlen,
      by simpa [activeAfter] using h,
      by simpa [lastSwitchedFrom] using htr⟩
  by_cases hg : s.enableSwitchTool = true
  · by_cases hact : getActiveToolName s = some ty
    · exact noopCase _ (setActiveTool_refused s ty (Or.inr hact)) rfl rfl
    · by_cases hen : ty ∈ s.enableToolTypes
      · by_cases hreg : ty ∈ s.toolCtorMap
        · -- successful switch
          rcases hcur : s.currentTool with _ | p
          · have hl : l = [] := by
              rcases h with hl | ⟨t, hct, _⟩
              · exact hl
              · rw [hcur] at hct; cases hct
            subst hl
            have hsucc := setActiveTool_success s ty hg hact hen hreg
            simp only [hcur] at hsucc
            rw [hsucc]
            refine ⟨?_, ?_, ?_⟩
            · intro i
              rcases i with _ | _ | _ | _ | i <;>
                simp [activeAfter, activeStep]
            · refine Or.inr ⟨⟨s.nextInstId, ty⟩, rfl, ?_⟩
              simp [activeAfter, activeStep]
            · refine ⟨fun hn => ?_, fun ty' hty' => ?_⟩
              · simp [lastSwitchedFrom] at hn
              · simp [lastSwitchedFrom] at hty'
                subst hty'
                rfl
          · have hl : l = [] ∨ l = [p.id] := by
              rcases h with hl | ⟨t, hct, hl⟩
              · exact Or.inl hl
              · rw [hcur] at hct
                obtain rfl := Option.some.inj hct
                exact Or.inr hl
            have hsucc := setActiveTool_success s ty hg hact hen hreg
            simp only [hcur] at hsucc
            rw [hsucc]
            refine ⟨?_, ?_, ?_⟩
            · intro i
              rcases hl with hl | hl <;> subst hl <;>
                rcases i with _ | _ | _ | _ | _ | i <;>
                  simp [activeAfter, activeStep]
            · refine Or.inr ⟨⟨s.nextInstId, ty⟩, rfl, ?_⟩
              rcases hl with hl | hl <;> subst hl <;>
                simp [activeAfter, activeStep]
            · refine ⟨fun hn => ?_, fun ty' hty' => ?_⟩
              · simp [lastSwitchedFrom] at hn
              · simp [lastSwitchedFrom] at hty'
                subst hty'
                rfl
        · exact noopCase _ (setActiveTool_unregistered s ty hg hact hen hreg)
            rfl rfl
      · -- not enabled: a warn observation only
        rw [setActiveTool_notEnabled s ty hg hact hen]
        refine ⟨?_, ?_, ?_⟩
        · intro i
          rcases i with _ | i <;> simpa [activeAfter, activeStep] using hlen
        · simpa [activeAfter, activeStep] using h
        · simpa [lastSwitchedFrom] using htr
  · exact noopCase _ (setActiveTool_refused s ty (Or.inl hg)) rfl rfl

theorem runSwitches_inv (tys : List String) :
    ∀ s l acc s0, Inv s l → Track s0 s acc →
      AtMostOne l (runSwitches s tys).2 ∧
      Inv (runSwitches s tys).1 (activeAfter l (runSwitches s tys).2) ∧
      Track s0 (runSwitches s tys).1
        (lastSwitchedFrom acc (runSwitches s tys).2) := by
  induction tys with
  | nil =>
    intro s l acc s0 h htr
    exact ⟨fun i => by simpa [activeAfter, runSwitches] using Inv_length s l h,
      by simpa [activeAfter, runSwitches] using h,
      by simpa [lastSwitchedFrom, runSwitches] using htr⟩
  | cons ty rest ih =>
    intro s l acc s0 h htr
    obtain ⟨h1, h2, h3⟩ := setActiveTool_invStep s ty l s0 acc h htr
    obtain ⟨h4, h5, h6⟩ := ih (setActiveTool s ty).state
      (activeAfter l (setActiveTool s ty).obs)
      (lastSwitchedFrom acc (setActiveTool s ty).obs) s0 h2 h3
    rw [runSwitches_cons]
    exact ⟨atMostOne_append l _ _ h1 h4,
      by simpa [activeAfter_append] using h5,
      by simpa [lastSwitchedFrom_append] using h6⟩

/-- C1: over any sequence of `setActiveTool` calls from a state whose
active-instance list matches its current tool, at most one tool instance
is active at every point of the observation trace, and after the run
`getActiveToolName()` equals the type carried by the last successful
activation's `switchTool` broadcast (and is unchanged when no activation
succeeded). -/
theorem C1_single_active (s : TMState) (l : List Nat) (tys : List String)
    (h : Inv s l) :
    AtMostOne l (runSwitches s tys).2 ∧
    (∀ ty, lastSwitchedFrom none (runSwitches s tys).2 = some ty →
      getActiveToolName (runSwitches s tys).1 = some ty) ∧
    (lastSwitchedFrom none (runSwitches s tys).2 = none →
      getActiveToolName (runSwitches s tys).1 = getActiveToolName s) := by
  have htr : Track s s none := ⟨fun _ => rfl, fun ty hty => by cases hty⟩
  obtain ⟨h1, _, h3⟩ := runSwitches_inv tys s l none s h htr
  exact ⟨h1, fun ty hty => h3.2 ty hty, fun h0 => h3.1 h0⟩

/-- C1 witness: a concrete run `select → rect → rect → ellipse` from the
startup state. -/
theorem C1_single_active_witness :
    Inv baseState [0] ∧
    (AtMostOne [0] (runSwitches baseState ["rect", "rect", "ellipse"]).2 ∧
      (∀ ty,
        lastSwitchedFrom none
          (runSwitches baseState ["rect", "rect", "ellipse"]).2 = some ty →
        getActiveToolName
          (runSwitches baseState ["rect", "rect", "ellipse"]).1 = some ty) ∧
      (lastSwitchedFrom none
          (runSwitches baseState ["rect", "rect", "ellipse"]).2 = none →
        getActiveToolName
          (runSwitches baseState ["rect", "rect", "ellipse"]).1 =
          getActiveToolName baseState)) :=
  ⟨Or.inr ⟨toolSelect, rfl, rfl⟩,
    C1_single_active baseState [0] ["rect", "rect", "ellipse"]
      (Or.inr ⟨toolSelect, rfl, rfl⟩)⟩

/-! Machinery for the lifecycle-pairing claim (C3). -/

theorem run_append (s : TMState) (l1 l2 : List Action) :
    run s (l1 ++ l2) =
      ((run (run s l1).1 l2).1, (run s l1).2 ++ (run (run s l1).1 l2).2) := by
  induction l1 generalizing s with
  | nil => simp
  | cons a rest ih => simp [ih]

theorem midStepOk (t : ToolInstance) (p0 : IPoint) (s : TMState) (a : Action)
    (hmid : (∃ e env, a = Action.move e env) ∨
      (∃ ty, a = Action.setTool ty ∧
        (¬s.enableSwitchTool = true ∨ getActiveToolName s = some ty ∨
          ty ∉ s.enableToolTypes)) ∨
      (∃ ty, a = Action.hotkey ty ∧
        (¬(ty ∈ s.keyBindings ∧ ty ∈ s.enableToolTypes) ∨
          ¬s.enableSwitchTool = true ∨ getActiveToolName s = some ty)))
    (hp : Pressed t p0 s) :
    Pressed t p0 (step s a).state ∧
    ∀ o ∈ (step s a).obs,
      o = Obs.disableDragBySpace ∨ (∃ em, o = Obs.onDrag t.id em) ∨
        ∃ m, o = Obs.warn m := by
  obtain ⟨hc, hpr, hl, hsp⟩ := hp
  rcases hmid with ⟨e, env, rfl⟩ | ⟨ty, rfl, href⟩ | ⟨ty, rfl, href⟩
  · by_cases hd : s.isDraggingFlag = true
    · rw [show step s (Action.move e env) = handleMove env s e from rfl,
        handleMove_dragging env s e t hc hpr hl hd]
      refine ⟨⟨hc, hpr, hl, hsp⟩, ?_⟩
      intro o ho
      simp at ho
      rcases ho with rfl | rfl
      · exact Or.inl rfl
      · exact Or.inr (Or.inl ⟨e, rfl⟩)
    · have hd' : s.isDraggingFlag = false := by simpa using hd
      by_cases hex : exceeds env s.startPos e
      · rw [show step s (Action.move e env) = handleMove env s e from rfl,
          handleMove_pressed_latch env s e t hc hpr hl hd' hex]
        refine ⟨⟨hc, hpr, hl, hsp⟩, ?_⟩
        intro o ho
        simp at ho
        rcases ho with rfl | rfl
        · exact Or.inl rfl
        · exact Or.inr (Or.inl ⟨e, rfl⟩)
      · rw [show step s (Action.move e env) = handleMove env s e from rfl,
          handleMove_pressed_small env s e t hc hpr hl hd' hex]
        refine ⟨⟨hc, hpr, hl, hsp⟩, ?_⟩
        intro o ho
        cases ho
  · have hstep : step s (Action.setTool ty) = setActiveTool s ty := rfl
    rcases href with h1 | h2 | h3
    · rw [hstep, setActiveTool_refused s ty (Or.inl h1)]
      refine ⟨⟨hc, hpr, hl, hsp⟩, ?_⟩
      intro o ho
      cases ho
    · rw [hstep, setActiveTool_refused s ty (Or.inr h2)]
      refine ⟨⟨hc, hpr, hl, hsp⟩, ?_⟩
      intro o ho
      cases ho
    · by_cases h1 : ¬s.enableSwitchTool = true ∨ getActiveToolName s = some ty
      · rw [hstep, setActiveTool_refused s ty h1]
        refine ⟨⟨hc, hpr, hl, hsp⟩, ?_⟩
        intro o ho
        cases ho
      · push_neg at h1
        rw [hstep, setActiveTool_notEnabled s ty (by simpa using h1.1) h1.2 h3]
        refine ⟨⟨hc, hpr, hl, hsp⟩, ?_⟩
        intro o ho
        simp at ho
        exact Or.inr (Or.inr ⟨_, ho⟩)
  · have hstep : step s (Action.hotkey ty) = triggerHotkey s ty := rfl
    by_cases hbnd : ty ∈ s.keyBindings ∧ ty ∈ s.enableToolTypes
    · have hfire : triggerHotkey s ty = setActiveTool s ty :=
        triggerHotkey_fires s ty hbnd.1 hbnd.2
      rcases href with h1 | h2 | h3
      · exact absurd hbnd h1
      · rw [hstep, hfire, setActiveTool_refused s ty (Or.inl h2)]
        refine ⟨⟨hc, hpr, hl, hsp⟩, ?_⟩
        intro o ho
        cases ho
      · rw [hstep, hfire, setActiveTool_refused s ty (Or.inr h3)]
        refine ⟨⟨hc, hpr, hl, hsp⟩, ?_⟩
        intro o ho
        cases ho
    · rw [hstep, triggerHotkey_skipped s ty hbnd]
      refine ⟨⟨hc, hpr, hl, hsp⟩, ?_⟩
      intro o ho
      cases ho

theorem runMidsOk (t : ToolInstance) (p0 : IPoint) :
    ∀ mids : List Action, ∀ s : TMState, MidsOk s mids → Pressed t p0 s →
      Pressed t p0 (run s mids).1 ∧
      ∀ o ∈ (run s mids).2,
        o = Obs.disableDragBySpace ∨ (∃ em, o = Obs.onDrag t.id em) ∨
          ∃ m, o = Obs.warn m := by
  intro mids
  induction mids with
  | nil =>
    intro s _ hp
    refine ⟨hp, ?_⟩
    intro o ho
    cases ho
  | cons a rest ih =>
    intro s hmids hp
    obtain ⟨hhead, hrest⟩ := hmids
    obtain ⟨hp1, ho1⟩ := midStepOk t p0 s a hhead hp
    obtain ⟨hp2, ho2⟩ := ih (step s a).state hrest hp1
    rw [run_cons]
    refine ⟨hp2, ?_⟩
    intro o ho
    rcases List.mem_append.mp ho with h | h
    · exact ho1 o h
    · exact ho2 o h

/-- C3 counterexample: the switch gate is open while the press is still
within the drag threshold, so `setActiveTool` can succeed mid-press. In
the concrete trace down → `setActiveTool('rect')` → up, instance 1 (the
new rect tool) receives `onEnd` without ever receiving `onStart`, and
instance 0 receives `onStart` and is deactivated (`onInactive`) without
ever receiving its terminating `onEnd` — refuting both halves of the
claim. -/
theorem C3_counterexample :
    ((run baseState c3trace).2.any fun o =>
      match o with
      | Obs.onEnd 1 _ _ => true
      | _ => false) = true ∧
    ((run baseState c3trace).2.any fun o =>
      match o with
      | Obs.onStart 1 _ => true
      | _ => false) = false ∧
    ((run baseState c3trace).2.any fun o =>
      match o with
      | Obs.onStart 0 _ => true
      | _ => false) = true ∧
    ((run baseState c3trace).2.any fun o =>
      match o with
      | Obs.onEnd 0 _ _ => true
      | _ => false) = false ∧
    ((run baseState c3trace).2.any fun o =>
      match o with
      | Obs.onInactive 0 => true
      | _ => false) = true := by decide

/-- C3 (amended): for every press sequence started with the primary
button in which every interleaved `setActiveTool` request (direct or
hotkey-initiated) is refused at the point where it runs — the switch
gate is closed (as it always is once dragging begins), the target is
already the active tool, or the target is not in the enabled set — the
instance that received `onStart` receives exactly one terminating pair
`onEnd` followed by `afterEnd` at the matching pointerup, is never
deactivated during the press, and `onDrag`/`onEnd` are delivered only to
that instance. -/
theorem C3_lifecycle_pairing (t : ToolInstance) (s : TMState)
    (e eUp : PtrEvent) (env : Env) (mids : List Action)
    (hc : s.currentTool = some t) (hb : e.button = 0)
    (hed : env.isEditing = false) (hsp : env.isSpacePressing = false)
    (hmid : MidsOk (handleDown env s e).state mids) :
    ∃ midObs d,
      (run s (Action.down e env :: (mids ++ [Action.up eUp]))).2 =
        Obs.onStart t.id e :: midObs ++
          [Obs.enableDragBySpace, Obs.onEnd t.id eUp d,
            Obs.afterEnd t.id eUp] ∧
      ∀ o ∈ midObs,
        o = Obs.disableDragBySpace ∨ (∃ em, o = Obs.onDrag t.id em) ∨
          ∃ m, o = Obs.warn m := by
  have hdown := handleDown_ok env s e t hb hed hsp hc
  have hstep : step s (Action.down e env) = handleDown env s e := rfl
  rw [hdown] at hmid
  rw [run_cons, hstep, hdown]
  set s1 : TMState :=
    { s with isPressing := true, isDraggingFlag := false,
             startWithLeftMouse := true,
             startPos := ⟨e.clientX, e.clientY⟩ } with hs1
  have hmid1 : MidsOk s1 mids := hmid
  have hp1 : Pressed t ⟨e.clientX, e.clientY⟩ s1 := ⟨hc, rfl, rfl, rfl⟩
  obtain ⟨hp2, ho2⟩ := runMidsOk t ⟨e.clientX, e.clientY⟩ mids s1 hmid1 hp1
  obtain ⟨hc2, hpr2, hl2, _⟩ := hp2
  refine ⟨(run s1 mids).2, (run s1 mids).1.isDraggingFlag, ?_, ho2⟩
  rw [run_append]
  have hup : run (run s1 mids).1 [Action.up eUp] =
      ((handleUp (run s1 mids).1 eUp).state,
        (handleUp (run s1 mids).1 eUp).obs) := by
    rw [run_cons]
    simp
    exact ⟨rfl, rfl⟩
  rw [hup, handleUp_pressed (run s1 mids).1 eUp t hc2 hl2 hpr2]
  simp

/-- C3 witness: a concrete press on `baseState` — down; a refused
`setActiveTool('select')` (already active, gate still open); a move to
(10,10) that starts dragging; a refused `setActiveTool('ellipse')`
(enabled and not active, but the gate is closed mid-drag); up — with the
whole pairing delivered to instance 0. -/
theorem C3_lifecycle_pairing_witness :
    ∃ midObs d,
      (run baseState (Action.down downEvent calmEnv ::
        ([Action.setTool "select", Action.move moveBig calmEnv,
          Action.setTool "ellipse"] ++ [Action.up upEvent]))).2 =
        Obs.onStart 0 downEvent :: midObs ++
          [Obs.enableDragBySpace, Obs.onEnd 0 upEvent d,
            Obs.afterEnd 0 upEvent] ∧
      ∀ o ∈ midObs,
        o = Obs.disableDragBySpace ∨ (∃ em, o = Obs.onDrag 0 em) ∨
          ∃ m, o = Obs.warn m :=
  C3_lifecycle_pairing toolSelect baseState downEvent upEvent calmEnv
    [Action.setTool "select", Action.move moveBig calmEnv,
      Action.setTool "ellipse"] rfl rfl rfl rfl
    (by
      refine ⟨Or.inr (Or.inl ⟨"select", rfl, Or.inr (Or.inl (by decide))⟩),
        Or.inl ⟨moveBig, calmEnv, rfl⟩,
        Or.inr (Or.inl ⟨"ellipse", rfl, Or.inl (by decide)⟩), trivial⟩)

/-! Machinery for the drag-latch claim (C4). -/

theorem runMoves_within (env : Env) (t : ToolInstance) (p0 : IPoint) :
    ∀ ms : List PtrEvent, ∀ s : TMState, Pressed t p0 s →
      s.isDraggingFlag = false → (∀ e ∈ ms, ¬exceeds env p0 e) →
      Pressed t p0 (runMoves env s ms) ∧
      (runMoves env s ms).isDraggingFlag = false ∧
      (runMoves env s ms).enableSwitchTool = s.enableSwitchTool := by
  intro ms
  induction ms with
  | nil =>
    intro s hp hd _
    exact ⟨hp, hd, rfl⟩
  | cons e rest ih =>
    intro s hp hd hne
    obtain ⟨hc, hpr, hl, hsp⟩ := hp
    have hne' : ¬exceeds env s.startPos e := by
      rw [hsp]
      exact hne e (List.mem_cons_self e rest)
    have hm := handleMove_pressed_small env s e t hc hpr hl hd hne'
    rw [show runMoves env s (e :: rest) =
        runMoves env (handleMove env s e).state rest from rfl, hm]
    exact ih _ ⟨hc, hpr, hl, hsp⟩ hd
      (fun e' he' => hne e' (List.mem_cons_of_mem e he'))

theorem runMoves_whileDragging (env : Env) (t : ToolInstance) (p0 : IPoint) :
    ∀ ms : List PtrEvent, ∀ s : TMState, Pressed t p0 s →
      s.isDraggingFlag = true → s.enableSwitchTool = false →
      Pressed t p0 (runMoves env s ms) ∧
      (runMoves env s ms).isDraggingFlag = true ∧
      (runMoves env s ms).enableSwitchTool = false := by
  intro ms
  induction ms with
  | nil =>
    intro s hp hd hg
    exact ⟨hp, hd, hg⟩
  | cons e rest ih =>
    intro s hp hd _
    obtain ⟨hc, hpr, hl, hsp⟩ := hp
    have hm := handleMove_dragging env s e t hc hpr hl hd
    rw [show runMoves env s (e :: rest) =
        runMoves env (handleMove env s e).state rest from rfl, hm]
    exact ih _ ⟨hc, hpr, hl, hsp⟩ hd rfl

theorem handleUp_reopens (s : TMState) (e : PtrEvent) :
    (handleUp s e).state.enableSwitchTool = true := by
  unfold handleUp
  dsimp only
  split
  · rfl
  · split
    · rfl
    · split
      · rfl
      · rfl

/-- C4: in a press started with the primary button, moves within the
threshold dispatch nothing to the tool; the exact first move whose
displacement from press start exceeds `dragBlockStep` on some axis
latches `isDragging`, closes the switch gate, suppresses the
pan-by-space gesture (`disableDragBySpace`) and invokes `onDrag`; every
later move also invokes `onDrag` with the gate still closed; a closed
gate makes every `setActiveTool` call a refusal; and the pointerup
reopens the gate. -/
theorem C4_drag_latch (env : Env) (t : ToolInstance) (p0 : IPoint)
    (s : TMState) (pre post : List PtrEvent) (ej : PtrEvent)
    (hp : Pressed t p0 s) (hd : s.isDraggingFlag = false)
    (hpre : ∀ e ∈ pre, ¬exceeds env p0 e) (hj : exceeds env p0 ej) :
    (∀ pre1 e' pre2, pre = pre1 ++ e' :: pre2 →
      (handleMove env (runMoves env s pre1) e').obs = []) ∧
    ((handleMove env (runMoves env s pre) ej).obs =
        [Obs.disableDragBySpace, Obs.onDrag t.id ej] ∧
      (handleMove env (runMoves env s pre) ej).state.isDraggingFlag = true ∧
      (handleMove env (runMoves env s pre) ej).state.enableSwitchTool = false) ∧
    (∀ post1 e' post2, post = post1 ++ e' :: post2 →
      (handleMove env (runMoves env
          (handleMove env (runMoves env s pre) ej).state post1) e').obs =
        [Obs.disableDragBySpace, Obs.onDrag t.id e'] ∧
      (runMoves env (handleMove env (runMoves env s pre) ej).state
          post1).enableSwitchTool = false) ∧
    (∀ s' : TMState, ∀ ty : String, s'.enableSwitchTool = false →
      setActiveTool s' ty = ⟨s', [], none⟩) ∧
    (∀ s' : TMState, ∀ e' : PtrEvent,
      (handleUp s' e').state.enableSwitchTool = true) := by
  obtain ⟨hpj, hdj, _⟩ := runMoves_within env t p0 pre s hp hd hpre
  obtain ⟨hcj, hprj, hlj, hspj⟩ := hpj
  have hexj : exceeds env (runMoves env s pre).startPos ej := by
    rw [hspj]; exact hj
  have hlatch := handleMove_pressed_latch env (runMoves env s pre) ej t
    hcj hprj hlj hdj hexj
  refine ⟨?_, ?_, ?_, ?_, ?_⟩
  · intro pre1 e' pre2 hsplit
    have hpre1 : ∀ e ∈ pre1, ¬exceeds env p0 e := by
      intro e he
      exact hpre e (hsplit ▸ List.mem_append_left _ he)
    obtain ⟨hp1, hd1, _⟩ := runMoves_within env t p0 pre1 s hp hd hpre1
    obtain ⟨hc1, hpr1, hl1, hsp1⟩ := hp1
    have hne' : ¬exceeds env (runMoves env s pre1).startPos e' := by
      rw [hsp1]
      exact hpre e' (hsplit ▸ List.mem_append_right _
        (List.mem_cons_self e' pre2))
    rw [handleMove_pressed_small env (runMoves env s pre1) e' t
      hc1 hpr1 hl1 hd1 hne']
  · rw [hlatch]
    exact ⟨rfl, rfl, rfl⟩
  · intro post1 e' post2 _
    have hplatch : Pressed t p0 (handleMove env (runMoves env s pre) ej).state := by
      rw [hlatch]
      exact ⟨hcj, hprj, hlj, hspj⟩
    have hdlatch : (handleMove env (runMoves env s pre) ej).state.isDraggingFlag
        = true := by rw [hlatch]
    have hglatch : (handleMove env (runMoves env s pre) ej).state.enableSwitchTool
        = false := by rw [hlatch]
    obtain ⟨hp3, hd3, hg3⟩ := runMoves_whileDragging env t p0 post1
      (handleMove env (runMoves env s pre) ej).state hplatch hdlatch hglatch
    obtain ⟨hc3, hpr3, hl3, _⟩ := hp3
    rw [handleMove_dragging env _ e' t hc3 hpr3 hl3 hd3]
    exact ⟨rfl, hg3⟩
  · intro s' ty hgf
    exact setActiveTool_refused s' ty (Or.inl (by simp [hgf]))
  · intro s' e'
    exact handleUp_reopens s' e'

/-- C4 witness: scenario B — press at the origin with threshold 5, move
to (2,2) (no dispatch), move to (10,10) (latch: gate closes, `onDrag`),
move to (12,9) (`onDrag` again), and the closed gate refuses a switch. -/
theorem C4_drag_latch_witness :
    Pressed toolSelect ⟨0, 0⟩ pressedState ∧
    exceeds calmEnv ⟨0, 0⟩ moveBig ∧
    (handleMove calmEnv (runMoves calmEnv pressedState []) moveSmall).obs = [] ∧
    ((handleMove calmEnv (runMoves calmEnv pressedState [moveSmall])
        moveBig).obs = [Obs.disableDragBySpace, Obs.onDrag 0 moveBig] ∧
      (handleMove calmEnv (runMoves calmEnv pressedState [moveSmall])
        moveBig).state.isDraggingFlag = true ∧
      (handleMove calmEnv (runMoves calmEnv pressedState [moveSmall])
        moveBig).state.enableSwitchTool = false) ∧
    (handleMove calmEnv (runMoves calmEnv
        (handleMove calmEnv (runMoves calmEnv pressedState [moveSmall])
          moveBig).state []) moveBig2).obs =
      [Obs.disableDragBySpace, Obs.onDrag 0 moveBig2] ∧
    setActiveTool (handleMove calmEnv (runMoves calmEnv pressedState
        [moveSmall]) moveBig).state "rect" =
      ⟨(handleMove calmEnv (runMoves calmEnv pressedState [moveSmall])
          moveBig).state, [], none⟩ := by
  have h := C4_drag_latch calmEnv toolSelect ⟨0, 0⟩ pressedState [moveSmall]
    [moveBig2] moveBig ⟨rfl, rfl, rfl, rfl⟩ rfl
    (by
      intro e he
      simp at he
      subst he
      decide)
    (by decide)
  exact ⟨⟨rfl, rfl, rfl, rfl⟩, by decide,
    h.1 [] moveSmall [] rfl,
    h.2.1,
    (h.2.2.1 [] moveBig2 [] rfl).1,
    h.2.2.2.1 _ "rect" h.2.1.2.2⟩

/-- C10 witness: destroying with `select` active, then switching to
`rect`, deactivates the same instance twice. -/
theorem C10_destroy_keeps_reference_witness :
    (destroy baseState).state = baseState ∧
    (destroy baseState).obs = [Obs.onInactive 0] ∧
    getActiveToolName (destroy baseState).state = some "select" ∧
    ((destroy baseState).obs ++
      (setActiveTool (destroy baseState).state "rect").obs).count
      (Obs.onInactive 0) = 2 :=
  have h := C10_destroy_keeps_reference baseState toolSelect "rect" rfl
  ⟨h.1, h.2.1, h.2.2.1, h.2.2.2 rfl (by decide) (by decide) (by decide)⟩

end Suika
